import Mathlib

/-!
Verification of `xdf_extraction.py` (class `XDFSchematicGenerator`).

The Python program is shallowly embedded below.  Dynamically-typed Python
values that the program inspects (strings, ints, floats, numpy arrays,
lists, dicts) are modelled by the inductive type `PyVal`; Python floats are
modelled as rationals.  A Python operation that can raise an exception is
modelled as an `Option`-valued function, `none` meaning "raises".
Presentational aspects (HTML/CSS text, the label strings produced by
`_get_type_and_info`, and the `sys.getsizeof`-based footprint estimate of
`_get_size_mb`, which depends on interpreter memory layout) are outside the
embedding; the structural content of the program (stream selection,
summary-row construction, tabular flattening, tree construction) is
embedded faithfully.
-/

set_option maxHeartbeats 1000000

namespace XdfExtraction

/-- A Python value as inspected by the program: strings, ints, floats
(modelled as `ℚ`), 1-D and 2-D numeric numpy arrays (a 2-D array stores its
second-dimension size `ncols`; by construction of real numpy arrays every
row has length `ncols`), Python lists, and string-keyed dicts (ordered
association lists, matching Python dict iteration order). -/
inductive PyVal where
  | str (s : String)
  | int (n : Int)
  | float (q : ℚ)
  | nd1 (vs : List ℚ)
  | nd2 (ncols : Nat) (rows : List (List ℚ))
  | list (vs : List PyVal)
  | dict (kvs : List (String × PyVal))

/-- First-match lookup in a dict, i.e. Python `d.get(key)` (a real dict has
no duplicate keys, so first-match agrees with dict lookup). -/
def lookupKey : List (String × PyVal) → String → Option PyVal
  | [], _ => none
  | (k, v) :: rest, key => if k = key then some v else lookupKey rest key

/-- One stream record as returned by `pyxdf.load_xdf`: a dict that may or
may not carry the keys `info`, `time_series` and `time_stamps`.  The
program reads each with `stream.get(key, default)`, so a missing key is
modelled as `none`.  `info` is a dict; `time_stamps` is a 1-D numeric
array, modelled as its list of values. -/
structure Stream where
  info : Option (List (String × PyVal))
  time_series : Option PyVal
  time_stamps : Option (List ℚ)

/-- Does `needle` occur at the head of `hay`? -/
def charsStartWith : List Char → List Char → Bool
  | [], _ => true
  | _ :: _, [] => false
  | a :: as, b :: bs => a == b && charsStartWith as bs

/-- Does `needle` occur contiguously anywhere in the character list? -/
def charsHaveSub (needle : List Char) : List Char → Bool
  | [] => needle.isEmpty
  | b :: bs => charsStartWith needle (b :: bs) || charsHaveSub needle bs

/-- Python's substring test `needle in hay`. -/
def strContains (hay needle : String) : Bool :=
  charsHaveSub needle.toList hay.toList

/-- The name-extraction expression used by `_find_behavioral_stream` (and
again when rendering):
`info.get('name', [''])[0] if isinstance(info.get('name'), list) else info.get('name', '')`
followed by `.lower()` on the result.  `none` models a raised exception:
`[''][0]`-style indexing of an empty list (IndexError) or `.lower()` on a
non-string (AttributeError). -/
def getNameRaw (info : List (String × PyVal)) : Option String :=
  match lookupKey info "name" with
  | some (.list []) => none
  | some (.list (.str s :: _)) => some s
  | some (.list (_ :: _)) => none
  | some (.str s) => some s
  | some _ => none
  | none => some ""

/-- Display name of a stream (`info = stream.get('info', {})`, then the
name expression above). -/
def streamDisplayName (s : Stream) : Option String :=
  getNameRaw (s.info.getD [])

/-- The fixed keyword list of `_find_behavioral_stream`. -/
def default_names : List String :=
  ["stimlabels", "markers", "events", "triggers", "behavioral"]

/-- Python truthiness of the optional hint `self.behavioral_stream_name`:
`None` and the empty string are falsy. -/
def hintTruthy : Option String → Bool
  | some h => !(h == "")
  | none => false

/-- The scan loop of `_find_behavioral_stream`.  Outer `none` models a
raised exception while extracting a name; `some none` is "no stream
selected"; `some (some (idx, name))` is a selection together with the
resolved display name stored back into `behavioral_stream_name`. -/
def find_behavioral_aux (hint : Option String) : List Stream → Nat → Option (Option (Nat × String))
  | [], _ => some none
  | s :: rest, idx =>
    match streamDisplayName s with
    | none => none
    | some name =>
      let nameLower := name.toLower
      if hintTruthy hint then
        (if strContains nameLower ((hint.getD "").toLower) then some (some (idx, name))
         else find_behavioral_aux hint rest (idx + 1))
      else
        (if default_names.any (fun d => strContains nameLower d) then some (some (idx, name))
         else find_behavioral_aux hint rest (idx + 1))

/-- `_find_behavioral_stream`: scan the streams in order starting at
index 0. -/
def find_behavioral_stream (streams : List Stream) (hint : Option String) :
    Option (Option (Nat × String)) :=
  find_behavioral_aux hint streams 0

/-- The per-stream match condition of the hint branch: the lowered display
name contains the lowered hint. -/
def nameMatchesHint (s : Stream) (hint : String) : Bool :=
  strContains ((streamDisplayName s).getD "").toLower hint.toLower

/-- The per-stream match condition of the default branch: the lowered
display name contains some default keyword. -/
def nameMatchesDefaults (s : Stream) : Bool :=
  default_names.any (fun d => strContains ((streamDisplayName s).getD "").toLower d)

lemma find_aux_hint_spec (hint : String) (hne : hint ≠ "") :
    ∀ (l : List Stream) (k : Nat),
      (∀ s ∈ l, (streamDisplayName s).isSome = true) →
      ∃ res, find_behavioral_aux (some hint) l k = some res ∧
        ((res = none ∧ ∀ (i : Nat) (s : Stream), l[i]? = some s → nameMatchesHint s hint = false) ∨
         (∃ (i : Nat) (s : Stream), l[i]? = some s ∧ nameMatchesHint s hint = true ∧
            res = some (k + i, (streamDisplayName s).getD "") ∧
            ∀ (j : Nat) (t : Stream), j < i → l[j]? = some t → nameMatchesHint t hint = false)) := by
  intro l
  induction l with
  | nil =>
    intro k _
    exact ⟨none, rfl, Or.inl ⟨rfl, by intro i s h; simp at h⟩⟩
  | cons s rest ih =>
    intro k hall
    have hs : (streamDisplayName s).isSome = true := hall s (by simp)
    obtain ⟨nm, hnm⟩ := Option.isSome_iff_exists.mp hs
    have htru : hintTruthy (some hint) = true := by
      simp [hintTruthy]; exact hne
    by_cases hm : strContains nm.toLower hint.toLower = true
    · refine ⟨some (k, nm), ?_, ?_⟩
      · simp [find_behavioral_aux, hnm, htru, hm]
      · refine Or.inr ⟨0, s, by simp, ?_, ?_, ?_⟩
        · simp [nameMatchesHint, hnm, hm]
        · simp [hnm]
        · intro j t hj
          exact fun _ => absurd hj (Nat.not_lt_zero j)
    · obtain ⟨res, hres, hcase⟩ := ih (k + 1) (fun t ht => hall t (by simp [ht]))
      refine ⟨res, ?_, ?_⟩
      · simp only [find_behavioral_aux, hnm, htru, if_true]
        simp [hm, hres]
      · rcases hcase with ⟨h0, hnone⟩ | ⟨i, t, hit, hmt, hrest, hprev⟩
        · refine Or.inl ⟨h0, ?_⟩
          intro i u hu
          match i with
          | 0 =>
            simp at hu
            subst hu
            simp [nameMatchesHint, hnm]
            simpa using hm
          | i + 1 =>
            simp at hu
            exact hnone i u hu
        · refine Or.inr ⟨i + 1, t, by simpa using hit, hmt, ?_, ?_⟩
          · have : k + (i + 1) = k + 1 + i := by omega
            rw [this]; exact hrest
          · intro j u hj hu
            match j with
            | 0 =>
              simp at hu
              subst hu
              simp [nameMatchesHint, hnm]
              simpa using hm
            | j + 1 =>
              simp at hu
              exact hprev j u (by omega) hu

/-- C1: with a non-empty hint, selection scans in original order and picks
the first stream whose display name contains the hint case-insensitively;
if no stream matches, the result is "no selection" (`some none`: a normal
outcome, not an exception). -/
theorem hint_selection_first_match (streams : List Stream) (hint : String)
    (hne : hint ≠ "")
    (hnames : ∀ s ∈ streams, (streamDisplayName s).isSome = true) :
    ∃ res, find_behavioral_stream streams (some hint) = some res ∧
      ((res = none ∧ ∀ (i : Nat) (s : Stream), streams[i]? = some s → nameMatchesHint s hint = false) ∨
       (∃ (i : Nat) (s : Stream), streams[i]? = some s ∧ nameMatchesHint s hint = true ∧
          res = some (i, (streamDisplayName s).getD "") ∧
          ∀ (j : Nat) (t : Stream), j < i → streams[j]? = some t → nameMatchesHint t hint = false)) := by
  obtain ⟨res, hres, hcase⟩ := find_aux_hint_spec hint hne streams 0 hnames
  refine ⟨res, hres, ?_⟩
  rcases hcase with h | ⟨i, s, h1, h2, h3, h4⟩
  · exact Or.inl h
  · exact Or.inr ⟨i, s, h1, h2, by simpa using h3, h4⟩

/-- Concrete three-stream list used by the C1 witness. -/
def wStreamsC1 : List Stream :=
  [⟨some [("name", .list [.str "EEG"])], none, none⟩,
   ⟨some [("name", .list [.str "Markers"])], none, none⟩,
   ⟨some [("name", .list [.str "Gaze"])], none, none⟩]

/-- C1 witness: a concrete three-stream list with hint "markers". -/
theorem hint_selection_first_match_witness :
    ∃ res, find_behavioral_stream wStreamsC1 (some "markers") = some res ∧
      ((res = none ∧ ∀ (i : Nat) (s : Stream), wStreamsC1[i]? = some s →
          nameMatchesHint s "markers" = false) ∨
       (∃ (i : Nat) (s : Stream), wStreamsC1[i]? = some s ∧
          nameMatchesHint s "markers" = true ∧
          res = some (i, (streamDisplayName s).getD "") ∧
          ∀ (j : Nat) (t : Stream), j < i → wStreamsC1[j]? = some t →
            nameMatchesHint t "markers" = false)) :=
  hint_selection_first_match wStreamsC1 "markers" (by decide) (by decide)

lemma find_aux_default_spec :
    ∀ (l : List Stream) (k : Nat),
      (∀ s ∈ l, (streamDisplayName s).isSome = true) →
      ∃ res, find_behavioral_aux none l k = some res ∧
        ((res = none ∧ ∀ (i : Nat) (s : Stream), l[i]? = some s → nameMatchesDefaults s = false) ∨
         (∃ (i : Nat) (s : Stream), l[i]? = some s ∧ nameMatchesDefaults s = true ∧
            res = some (k + i, (streamDisplayName s).getD "") ∧
            ∀ (j : Nat) (t : Stream), j < i → l[j]? = some t → nameMatchesDefaults t = false)) := by
  intro l
  induction l with
  | nil =>
    intro k _
    exact ⟨none, rfl, Or.inl ⟨rfl, by intro i s h; simp at h⟩⟩
  | cons s rest ih =>
    intro k hall
    have hs : (streamDisplayName s).isSome = true := hall s (by simp)
    obtain ⟨nm, hnm⟩ := Option.isSome_iff_exists.mp hs
    by_cases hm : (default_names.any (fun d => strContains nm.toLower d)) = true
    · refine ⟨some (k, nm), ?_, ?_⟩
      · simp [find_behavioral_aux, hnm, hintTruthy, hm]
      · refine Or.inr ⟨0, s, by simp, ?_, ?_, ?_⟩
        · simp [nameMatchesDefaults, hnm]
          simpa using hm
        · simp [hnm]
        · intro j t hj
          exact fun _ => absurd hj (Nat.not_lt_zero j)
    · obtain ⟨res, hres, hcase⟩ := ih (k + 1) (fun t ht => hall t (by simp [ht]))
      refine ⟨res, ?_, ?_⟩
      · simp only [find_behavioral_aux, hnm, hintTruthy]
        simp [hm, hres]
      · rcases hcase with ⟨h0, hnone⟩ | ⟨i, t, hit, hmt, hrest, hprev⟩
        · refine Or.inl ⟨h0, ?_⟩
          intro i u hu
          match i with
          | 0 =>
            simp at hu
            subst hu
            simp [nameMatchesDefaults, hnm]
            simpa using hm
          | i + 1 =>
            simp at hu
            exact hnone i u hu
        · refine Or.inr ⟨i + 1, t, by simpa using hit, hmt, ?_, ?_⟩
          · have : k + (i + 1) = k + 1 + i := by omega
            rw [this]; exact hrest
          · intro j u hj hu
            match j with
            | 0 =>
              simp at hu
              subst hu
              simp [nameMatchesDefaults, hnm]
              simpa using hm
            | j + 1 =>
              simp at hu
              exact hprev j u (by omega) hu

/-- C2: with no hint, selection scans in original order and picks the first
stream whose display name contains ANY of the default keywords
(`stimlabels`, `markers`, `events`, `triggers`, `behavioral`) as a
case-insensitive substring; which keyword matched never influences the
choice — the first matching stream in list order wins. -/
theorem default_selection_first_match (streams : List Stream)
    (hnames : ∀ s ∈ streams, (streamDisplayName s).isSome = true) :
    ∃ res, find_behavioral_stream streams none = some res ∧
      ((res = none ∧ ∀ (i : Nat) (s : Stream), streams[i]? = some s →
          nameMatchesDefaults s = false) ∨
       (∃ (i : Nat) (s : Stream), streams[i]? = some s ∧ nameMatchesDefaults s = true ∧
          res = some (i, (streamDisplayName s).getD "") ∧
          ∀ (j : Nat) (t : Stream), j < i → streams[j]? = some t →
            nameMatchesDefaults t = false)) := by
  obtain ⟨res, hres, hcase⟩ := find_aux_default_spec streams 0 hnames
  refine ⟨res, hres, ?_⟩
  rcases hcase with h | ⟨i, s, h1, h2, h3, h4⟩
  · exact Or.inl h
  · exact Or.inr ⟨i, s, h1, h2, by simpa using h3, h4⟩

/-- Concrete stream list used by the C2 witness: "StimLabels" matches the
keyword `stimlabels` case-insensitively, "EEG" matches nothing, so the
stream at index 1 is selected even though later streams match other
keywords. -/
def wStreamsC2 : List Stream :=
  [⟨some [("name", .list [.str "EEG"])], none, none⟩,
   ⟨some [("name", .list [.str "StimLabels"])], none, none⟩,
   ⟨some [("name", .list [.str "Markers"])], none, none⟩]

/-- C2 witness. -/
theorem default_selection_first_match_witness :
    ∃ res, find_behavioral_stream wStreamsC2 none = some res ∧
      ((res = none ∧ ∀ (i : Nat) (s : Stream), wStreamsC2[i]? = some s →
          nameMatchesDefaults s = false) ∨
       (∃ (i : Nat) (s : Stream), wStreamsC2[i]? = some s ∧ nameMatchesDefaults s = true ∧
          res = some (i, (streamDisplayName s).getD "") ∧
          ∀ (j : Nat) (t : Stream), j < i → wStreamsC2[j]? = some t →
            nameMatchesDefaults t = false)) :=
  default_selection_first_match wStreamsC2 (by decide)

/-- The helper `get_nested` of `_extract_stream_info`:
`val = d.get(key, [default]); return val[0] if isinstance(val, list) and len(val) > 0 else val`.
A missing key yields the (list-wrapped, immediately unwrapped) default;
a present non-empty list yields its first element; a present empty list is
returned as-is; any other present value is returned as-is. -/
def get_nested (d : List (String × PyVal)) (key : String) (dflt : PyVal) : PyVal :=
  match lookupKey d key with
  | some (.list (v :: _)) => v
  | some (.list []) => .list []
  | some v => v
  | none => dflt

/-- Python's `str.strip()` with no argument: remove leading and trailing
whitespace. -/
def pyStrip (s : String) : List Char :=
  ((s.toList.dropWhile (fun c => c.isWhitespace)).reverse.dropWhile
    (fun c => c.isWhitespace)).reverse

/-- Value of a non-empty all-digit character list. -/
def digitsVal (cs : List Char) : Option Nat :=
  if cs.isEmpty then none
  else cs.foldl (fun acc c =>
    acc.bind (fun n => if c.isDigit then some (10 * n + (c.toNat - 48)) else none)) (some 0)

/-- Python `int(str)`: surrounding whitespace stripped, optional sign,
then decimal digits; anything else raises ValueError (`none`). -/
def parseIntStr (s : String) : Option Int :=
  match pyStrip s with
  | '+' :: rest => (digitsVal rest).map Int.ofNat
  | '-' :: rest => (digitsVal rest).map (fun n => -(n : Int))
  | cs => (digitsVal cs).map Int.ofNat

/-- Integer part / fraction part of an unsigned decimal literal, split at a
single dot.  At least one of the two parts must be non-empty. -/
def parseUnsignedDec (cs : List Char) : Option ℚ :=
  match cs.splitOn '.' with
  | [a] => (digitsVal a).map (fun n => (n : ℚ))
  | [a, b] =>
    if a.isEmpty && b.isEmpty then none
    else do
      let av ← if a.isEmpty then pure 0 else digitsVal a
      let bv ← if b.isEmpty then pure 0 else digitsVal b
      pure ((av : ℚ) + (bv : ℚ) / ((10 : ℚ) ^ b.length))
  | _ => none

/-- Python `float(str)` on plain decimal literals: whitespace stripped,
optional sign, digits with an optional dot (exponent and special forms are
not used by the program's data and are not modelled). -/
def parseFloatStr (s : String) : Option ℚ :=
  match pyStrip s with
  | '+' :: rest => parseUnsignedDec rest
  | '-' :: rest => (parseUnsignedDec rest).map Neg.neg
  | cs => parseUnsignedDec cs

/-- Rational truncation toward zero, as Python `int(float)` does. -/
def ratTrunc (q : ℚ) : Int :=
  if q < 0 then -⌊-q⌋ else ⌊q⌋

/-- Python `int(x)`: ints pass through, floats truncate toward zero,
strings are parsed as decimal integers, everything else raises
(TypeError/ValueError, modelled as `none`; numpy size-1 array coercion is
not modelled since no claim touches it). -/
def pyInt : PyVal → Option Int
  | .int n => some n
  | .float q => some (ratTrunc q)
  | .str s => parseIntStr s
  | _ => none

/-- Python `float(x)`: ints and floats convert, strings are parsed as
decimal literals, everything else raises (`none`). -/
def pyFloat : PyVal → Option ℚ
  | .int n => some (n : ℚ)
  | .float q => some q
  | .str s => parseFloatStr s
  | _ => none

/-- `time_series.shape if hasattr(time_series, 'shape') else 'N/A'`:
numpy arrays have a shape, other values do not (`none` renders as `N/A`). -/
def pyShape : PyVal → Option (List Nat)
  | .nd1 vs => some [vs.length]
  | .nd2 ncols rows => some [rows.length, ncols]
  | _ => none

/-- One summary row, as assembled by `_extract_stream_info` (the
display-only `size_mb` estimate, computed from interpreter memory sizes, is
outside the embedding). -/
structure StreamInfo where
  index : Nat
  name : PyVal
  type : PyVal
  channels : Int
  srate_hz : ℚ
  samples : Nat
  duration_sec : ℚ
  time_series_shape : Option (List Nat)

/-- `_extract_stream_info`: pull name/type/channel-count/sample-rate out of
the (possibly list-wrapped) info fields via `get_nested`, count samples as
`len(time_stamps)`, and compute the duration as last minus first timestamp
when more than one timestamp exists (else 0).  `none` models the
ValueError/TypeError raised by `int(...)` or `float(...)` on a present but
non-numeric field. -/
def extract_stream_info (idx : Nat) (s : Stream) : Option StreamInfo :=
  let info := s.info.getD []
  let ts := s.time_series.getD (.nd1 [])
  let stamps := s.time_stamps.getD []
  let stream_name := get_nested info "name" (.str s!"Stream_{idx}")
  let stream_type := get_nested info "type" (.str "Unknown")
  match pyInt (get_nested info "channel_count" (.int 0)) with
  | none => none
  | some cc =>
    match pyFloat (get_nested info "nominal_srate" (.int 0)) with
    | none => none
    | some sr =>
      some { index := idx, name := stream_name, type := stream_type,
             channels := cc, srate_hz := sr,
             samples := stamps.length,
             duration_sec := if stamps.length > 1 then stamps.getLastD 0 - stamps.headD 0 else 0,
             time_series_shape := pyShape ts }

/-- The `for idx, stream in enumerate(self.streams)` loop of
`generate_summary_table`, appending a summary row for every stream except
the behavioral one; `none` models an exception inside
`_extract_stream_info`. -/
def summarizeFrom (bIdx : Option Nat) : Nat → List Stream → Option (List StreamInfo)
  | _, [] => some []
  | idx, s :: rest =>
    if some idx = bIdx then summarizeFrom bIdx (idx + 1) rest
    else do
      let r ← extract_stream_info idx s
      let rs ← summarizeFrom bIdx (idx + 1) rest
      pure (r :: rs)

/-- `generate_summary_table`: the behavioral stream's row first (when one
was selected; Python indexes `self.streams[self.behavioral_idx]`, so an
out-of-range index is an IndexError, `none`), then all remaining streams in
original order. -/
def generate_summary_table (streams : List Stream) (bIdx : Option Nat) :
    Option (List StreamInfo) :=
  match bIdx with
  | some i => do
    let s ← streams[i]?
    let r0 ← extract_stream_info i s
    let rest ← summarizeFrom (some i) 0 streams
    pure (r0 :: rest)
  | none => summarizeFrom none 0 streams

lemma extract_stream_info_index {idx : Nat} {s : Stream} {r : StreamInfo}
    (h : extract_stream_info idx s = some r) : r.index = idx := by
  simp only [extract_stream_info] at h
  split at h
  · simp at h
  · split at h
    · simp at h
    · simp only [Option.some.injEq] at h
      rw [← h]

lemma summarizeFrom_spec (b : Option Nat) :
    ∀ (l : List Stream) (k : Nat),
      (∀ (j : Nat) (s : Stream), l[j]? = some s →
        (extract_stream_info (k + j) s).isSome = true) →
      ∃ rows, summarizeFrom b k l = some rows ∧
        rows.map (·.index) = ((List.range l.length).map (k + ·)).filter (fun j => some j ≠ b) ∧
        ∀ r ∈ rows, ∃ (j : Nat) (s : Stream), l[j]? = some s ∧ r.index = k + j ∧
          extract_stream_info (k + j) s = some r := by
  intro l
  induction l with
  | nil =>
    intro k _
    exact ⟨[], rfl, by simp, by simp⟩
  | cons s rest ih =>
    intro k hall
    have hs0 : (extract_stream_info (k + 0) s).isSome = true := hall 0 s (by simp)
    have hallr : ∀ (j : Nat) (t : Stream), rest[j]? = some t →
        (extract_stream_info (k + 1 + j) t).isSome = true := by
      intro j t ht
      have := hall (j + 1) t (by simpa using ht)
      have he : k + (j + 1) = k + 1 + j := by omega
      rwa [he] at this
    obtain ⟨rows', hrows', hmap', hmem'⟩ := ih (k + 1) hallr
    have hrange : (List.range (rest.length + 1)).map (k + ·) =
        k :: (List.range rest.length).map (k + 1 + ·) := by
      rw [List.range_succ_eq_map]
      simp [List.map_map, Function.comp]
      intro a _
      omega
    by_cases hb : some k = b
    · have hstep : summarizeFrom b k (s :: rest) = summarizeFrom b (k + 1) rest := by
        simp [summarizeFrom, hb]
      refine ⟨rows', by rw [hstep, hrows'], ?_, ?_⟩
      · rw [hmap']
        simp only [List.length_cons, hrange]
        rw [List.filter_cons]
        have : (decide (some k ≠ b)) = false := by simp [hb]
        simp [this]
      · intro r hr
        obtain ⟨j, t, hjt, hidx, hext⟩ := hmem' r hr
        have he : k + 1 + j = k + (j + 1) := by omega
        exact ⟨j + 1, t, by simpa using hjt, by omega, by rw [← he]; exact hext⟩
    · obtain ⟨r0, hr0⟩ := Option.isSome_iff_exists.mp hs0
      have hidx0 : r0.index = k := by
        have := extract_stream_info_index hr0
        omega
      have hstep : summarizeFrom b k (s :: rest) = some (r0 :: rows') := by
        simp only [summarizeFrom, if_neg hb]
        rw [show k + 0 = k from rfl] at hr0
        rw [hr0, hrows']
        rfl
      refine ⟨r0 :: rows', hstep, ?_, ?_⟩
      · simp only [List.map_cons, hmap', List.length_cons, hrange]
        rw [List.filter_cons]
        have : (decide (some k ≠ b)) = true := by simpa using hb
        simp [this, hidx0]
      · intro r hr
        rcases List.mem_cons.mp hr with h | h
        · subst h
          exact ⟨0, s, by simp, by omega, hr0⟩
        · obtain ⟨j, t, hjt, hidx, hext⟩ := hmem' r h
          have he : k + 1 + j = k + (j + 1) := by omega
          exact ⟨j + 1, t, by simpa using hjt, by omega, by rw [← he]; exact hext⟩

/-- C3: the summary table has exactly one row per stream; with a selection
the selected stream's row comes first and the remaining rows follow in
original order with the selected index excluded exactly once; with no
selection the rows follow original stream order exactly.  (Each row is the
`_extract_stream_info` record of the stream at its index.) -/
theorem summary_table_order (streams : List Stream) (bIdx : Option Nat)
    (hb : bIdx = none ∨ ∃ i, bIdx = some i ∧ i < streams.length)
    (hex : ∀ (j : Nat) (s : Stream), streams[j]? = some s →
      (extract_stream_info j s).isSome = true) :
    ∃ rows, generate_summary_table streams bIdx = some rows ∧
      rows.map (·.index) = (match bIdx with
        | none => List.range streams.length
        | some i => i :: (List.range streams.length).filter (fun j => j ≠ i)) ∧
      ∀ r ∈ rows, ∃ s, streams[r.index]? = some s ∧
        extract_stream_info r.index s = some r := by
  have hex0 : ∀ (j : Nat) (s : Stream), streams[j]? = some s →
      (extract_stream_info (0 + j) s).isSome = true := by
    intro j s h
    simpa using hex j s h
  obtain ⟨rows', hrows', hmap', hmem'⟩ := summarizeFrom_spec bIdx streams 0 hex0
  rcases hb with hb | ⟨i, hb, hilt⟩
  · subst hb
    refine ⟨rows', hrows', ?_, ?_⟩
    · rw [hmap']
      simp
    · intro r hr
      obtain ⟨j, t, hjt, hidx, hext⟩ := hmem' r hr
      refine ⟨t, ?_, ?_⟩
      · rw [hidx]; simpa using hjt
      · rw [hidx]; simpa using hext
  · subst hb
    have hget : streams[i]? = some streams[i] := List.getElem?_eq_getElem hilt
    have hsi : (extract_stream_info i streams[i]).isSome = true := hex i streams[i] hget
    obtain ⟨r0, hr0⟩ := Option.isSome_iff_exists.mp hsi
    have hidx0 : r0.index = i := extract_stream_info_index hr0
    refine ⟨r0 :: rows', ?_, ?_, ?_⟩
    · simp only [generate_summary_table, hget, Option.bind_eq_bind, Option.some_bind]
      rw [hr0, hrows']
      rfl
    · simp only [List.map_cons, hmap', hidx0]
      congr 1
      · have h1 : (List.range streams.length).map (0 + ·) = List.range streams.length := by
          simp
        rw [h1]
        apply List.filter_congr
        intro j _
        simp
    · intro r hr
      rcases List.mem_cons.mp hr with h | h
      · subst h
        rw [hidx0]
        exact ⟨streams[i], hget, hr0⟩
      · obtain ⟨j, t, hjt, hidx, hext⟩ := hmem' r h
        refine ⟨t, ?_, ?_⟩
        · rw [hidx]; simpa using hjt
        · rw [hidx]; simpa using hext

/-- Concrete stream list used by the C3 witness. -/
def wStreamsC3 : List Stream :=
  [⟨some [("name", .list [.str "EEG"])], none, none⟩,
   ⟨some [("name", .list [.str "Markers"])], none, none⟩,
   ⟨some [("name", .list [.str "Gaze"])], none, none⟩]

/-- C3 witness: selecting index 1 puts row 1 first and rows 0, 2 after in
original order. -/
theorem summary_table_order_witness :
    ∃ rows, generate_summary_table wStreamsC3 (some 1) = some rows ∧
      rows.map (·.index) = (match (some 1 : Option Nat) with
        | none => List.range wStreamsC3.length
        | some i => i :: (List.range wStreamsC3.length).filter (fun j => j ≠ i)) ∧
      ∀ r ∈ rows, ∃ s, wStreamsC3[r.index]? = some s ∧
        extract_stream_info r.index s = some r :=
  summary_table_order wStreamsC3 (some 1) (Or.inr ⟨1, rfl, by decide⟩)
    (by
      intro j s h
      have hlen : j < 3 := by
        by_contra hge
        rw [List.getElem?_eq_none (by simp [wStreamsC3]; omega)] at h
        exact Option.noConfusion h
      interval_cases j <;> simp only [wStreamsC3] at h <;> simp at h <;> subst h <;> decide)

/-- C4 counterexample: a stream whose `channel_count` field is present but
malformed (the non-numeric string "abc").  `int('abc')` raises ValueError,
so `_extract_stream_info` raises (modelled as `none`) instead of falling
back to a typed default — refuting "never raises ... for any shape of the
metadata mapping". -/
theorem metadata_extraction_raises_on_malformed :
    extract_stream_info 0 ⟨some [("channel_count", .list [.str "abc"])], none, none⟩ =
      none := by rfl

/-- C4 (amended): when the numeric metadata fields (`channel_count`,
`nominal_srate`) are absent, extraction succeeds with typed defaults (zero
channels, zero rate), and absent `name`/`type` fields also get their
defaults; extraction never raises on absent metadata.  (Present but
non-numeric values of the numeric fields do raise — see the
counterexample.) -/
theorem metadata_defaults_on_absent (idx : Nat) (s : Stream)
    (hcc : (lookupKey (s.info.getD []) "channel_count").isNone = true)
    (hsr : (lookupKey (s.info.getD []) "nominal_srate").isNone = true) :
    ∃ r, extract_stream_info idx s = some r ∧ r.channels = 0 ∧ r.srate_hz = 0 ∧
      ((lookupKey (s.info.getD []) "name").isNone = true →
        r.name = .str s!"Stream_{idx}") ∧
      ((lookupKey (s.info.getD []) "type").isNone = true →
        r.type = .str "Unknown") := by
  have h1 := Option.isNone_iff_eq_none.mp hcc
  have h2 := Option.isNone_iff_eq_none.mp hsr
  refine ⟨{ index := idx,
            name := get_nested (s.info.getD []) "name" (.str s!"Stream_{idx}"),
            type := get_nested (s.info.getD []) "type" (.str "Unknown"),
            channels := 0, srate_hz := 0,
            samples := (s.time_stamps.getD []).length,
            duration_sec := if (s.time_stamps.getD []).length > 1 then
                (s.time_stamps.getD []).getLastD 0 - (s.time_stamps.getD []).headD 0
              else 0,
            time_series_shape := pyShape (s.time_series.getD (.nd1 [])) },
          ?_, rfl, rfl, ?_, ?_⟩
  · simp [extract_stream_info, get_nested, h1, h2, pyInt, pyFloat]
  · intro hn
    have hn' := Option.isNone_iff_eq_none.mp hn
    simp [get_nested, hn']
  · intro ht
    have ht' := Option.isNone_iff_eq_none.mp ht
    simp [get_nested, ht']

/-- C4 witness: a stream with an entirely empty info dict gets all four
defaults and extraction succeeds. -/
theorem metadata_defaults_on_absent_witness :
    ∃ r, extract_stream_info 7 (⟨some [], none, none⟩ : Stream) = some r ∧
      r.channels = 0 ∧ r.srate_hz = 0 ∧
      ((lookupKey ((⟨some [], none, none⟩ : Stream).info.getD []) "name").isNone = true →
        r.name = .str s!"Stream_{(7 : Nat)}") ∧
      ((lookupKey ((⟨some [], none, none⟩ : Stream).info.getD []) "type").isNone = true →
        r.type = .str "Unknown") :=
  metadata_defaults_on_absent 7 ⟨some [], none, none⟩ (by decide) (by decide)

/-- C5: the reported duration is last timestamp minus first timestamp when
at least two timestamps exist, else zero; no sortedness is assumed, so a
disordered sequence yields the raw (possibly negative) difference
unchanged. -/
theorem duration_last_minus_first (idx : Nat) (s : Stream) (r : StreamInfo)
    (h : extract_stream_info idx s = some r) :
    ((s.time_stamps.getD []).length ≤ 1 → r.duration_sec = 0) ∧
    (2 ≤ (s.time_stamps.getD []).length →
      r.duration_sec =
        (s.time_stamps.getD []).getLastD 0 - (s.time_stamps.getD []).headD 0) := by
  simp only [extract_stream_info] at h
  split at h
  · simp at h
  · split at h
    · simp at h
    · simp only [Option.some.injEq] at h
      subst h
      constructor
      · intro hle
        simp only
        rw [if_neg (by omega)]
      · intro hge
        simp only
        rw [if_pos (by omega)]

/-- Disordered two-timestamp stream used by the C5 witness. -/
def wStreamC5 : Stream := ⟨some [], none, some [5, 2]⟩

/-- C5 witness: timestamps `[5, 2]` are disordered; the duration is the
raw negative difference `2 - 5 = -3`. -/
theorem duration_last_minus_first_witness :
    ∃ r, extract_stream_info 0 wStreamC5 = some r ∧ r.duration_sec = -3 := by
  have hs : (extract_stream_info 0 wStreamC5).isSome = true := by decide
  obtain ⟨r, hr⟩ := Option.isSome_iff_exists.mp hs
  refine ⟨r, hr, ?_⟩
  have h2 := (duration_last_minus_first 0 wStreamC5 r hr).2 (by decide)
  rw [h2]
  norm_num [wStreamC5]

/-- A pandas DataFrame as the program builds one: an ordered list of
named columns (`df[name] = values` appends a fresh column on the right;
the program never assigns the same name twice). -/
abbrev DataFrame : Type := List (String × List PyVal)

/-- `df[name] = col`: appending a column to an empty frame sets its
length; appending to a non-empty frame raises ValueError (`none`) when the
new column's length differs from the frame's row count. -/
def dfSetCol (df : DataFrame) (name : String) (col : List PyVal) : Option DataFrame :=
  match df with
  | [] => some [(name, col)]
  | (c :: _) => if col.length = c.2.length then some (df ++ [(name, col)]) else none

/-- `df.empty`: no columns, or columns with zero rows. -/
def dfEmpty (df : DataFrame) : Bool :=
  match df with
  | [] => true
  | (c :: _) => c.2.isEmpty

/-- Row count of a frame (all columns share one length by construction). -/
def dfNRows (df : DataFrame) : Nat :=
  match df with
  | [] => 0
  | (c :: _) => c.2.length

/-- The data columns of a frame: every column except the appended
`time_stamp` column. -/
def dfValueCols (df : DataFrame) : List (String × List PyVal) :=
  df.filter (fun c => c.1 ≠ "time_stamp")

/-- Python `len(x)`: strings, lists, dicts and arrays have a length;
`len` of a number raises TypeError (`none`). -/
def pyLen : PyVal → Option Nat
  | .str s => some s.length
  | .list vs => some vs.length
  | .dict kvs => some kvs.length
  | .nd1 vs => some vs.length
  | .nd2 _ rows => some rows.length
  | .int _ => none
  | .float _ => none

/-- Python `x[i]` for a non-negative integer index: sequence indexing for
strings/lists/arrays; a dict raises KeyError for an integer key (the
embedded dicts are string-keyed); numbers raise TypeError. -/
def pySeqGet : PyVal → Nat → Option PyVal
  | .str s, i => (s.toList[i]?).map (fun c => .str (String.mk [c]))
  | .list vs, i => vs[i]?
  | .nd1 vs, i => (vs[i]?).map .float
  | .nd2 _ rows, i => (rows[i]?).map .nd1
  | _, _ => none

/-- The per-row expression of `get_behavioral_data`'s ragged branch:
`x[i] if len(x) > i else ''` (`none` models the TypeError/KeyError raised
on a row that is not a sequence). -/
def rowElem (i : Nat) (x : PyVal) : Option PyVal :=
  match pyLen x with
  | none => none
  | some n => if i < n then pySeqGet x i else some (.str "")

/-- `isinstance(x, (list, np.ndarray))`, the ragged-branch guard on the
first element of a `time_series` list. -/
def isListOrArray : PyVal → Bool
  | .list _ => true
  | .nd1 _ => true
  | .nd2 _ _ => true
  | _ => false

/-- A Python list comprehension over an element-wise fallible expression:
evaluate `f` on each element in order, propagating the first exception. -/
def listMapOpt {α β : Type} (f : α → Option β) : List α → Option (List β)
  | [] => some []
  | x :: xs => do
    let y ← f x
    let ys ← listMapOpt f xs
    pure (y :: ys)

/-- The `feature_{i}` column loop shared by the 2-D-array and ragged
branches: successively append one column per index in `ks`. -/
def dfAddCols (mk : Nat → Option (List PyVal)) (name : Nat → String) :
    List Nat → DataFrame → Option DataFrame
  | [], df => some df
  | k :: ks, df => do
    let col ← mk k
    let df' ← dfSetCol df (name k) col
    dfAddCols mk name ks df'

/-- `get_behavioral_data`: an empty frame when no stream was selected;
otherwise flatten the selected stream's `time_series` by shape (2-D array
by second-dimension slots, 1-D array as one column, list of sequences by
the first row's length with `''` padding for short rows, flat list as one
column, anything else contributing no value columns), then append the
`time_stamps` as a `time_stamp` column when at least one timestamp exists.
`none` models a raised exception (IndexError on a bad selection index,
TypeError inside the ragged comprehension, ValueError on a column-length
mismatch). -/
def get_behavioral_data (streams : List Stream) (bIdx : Option Nat) : Option DataFrame :=
  match bIdx with
  | none => some []
  | some i =>
    match streams[i]? with
    | none => none
    | some stream =>
      let time_series := stream.time_series.getD (.list [])
      let time_stamps := stream.time_stamps.getD []
      let withVals : Option DataFrame :=
        match time_series with
        | .nd2 ncols rows =>
          if ncols = 1 then
            dfSetCol [] "time_series" (rows.map (fun r => .float (r.headD 0)))
          else
            dfAddCols (fun i => some (rows.map (fun r => .float (r.getD i 0))))
              (fun i => s!"feature_{i}") (List.range ncols) []
        | .nd1 vs => dfSetCol [] "time_series" (vs.map .float)
        | .list [] => some []
        | .list (v0 :: rest) =>
          if isListOrArray v0 then
            let n_cols := if (pyLen v0).getD 0 > 0 then (pyLen v0).getD 0 else 1
            if n_cols = 1 then do
              let col ← listMapOpt (rowElem 0) (v0 :: rest)
              dfSetCol [] "time_series" col
            else
              dfAddCols (fun i => listMapOpt (rowElem i) (v0 :: rest))
                (fun i => s!"feature_{i}") (List.range n_cols) []
          else
            some [("time_series", v0 :: rest)]
        | _ => some []
      match withVals with
      | none => none
      | some df =>
        if time_stamps.length > 0 then dfSetCol df "time_stamp" (time_stamps.map .float)
        else some df

/-- `save_behavioral_data_csv`: `none` models an exception; `some none` is
the "no behavioral data to save" outcome in which no file is written; on a
non-empty frame the returned path is the stem plus the fixed suffix (the
actual file write is I/O outside the embedding). -/
def save_behavioral_data_csv (streams : List Stream) (bIdx : Option Nat)
    (output_stem : String) : Option (Option String) :=
  match get_behavioral_data streams bIdx with
  | none => none
  | some df =>
    if dfEmpty df then some none
    else some (some (output_stem ++ "_behavioral_data.csv"))

lemma dfSetCol_inv {df : DataFrame} {nm : String} {col : List PyVal} {out : DataFrame}
    (h : dfSetCol df nm col = some out) : out = df ++ [(nm, col)] := by
  match df with
  | [] =>
    simp only [dfSetCol, Option.some.injEq] at h
    simp [← h]
  | c :: cs =>
    simp only [dfSetCol] at h
    split at h
    · simpa using h.symm
    · exact absurd h (by simp)

lemma dfSetCol_ok (df : DataFrame) (nm : String) (col : List PyVal)
    (h : df = [] ∨ col.length = dfNRows df) :
    dfSetCol df nm col = some (df ++ [(nm, col)]) := by
  match df with
  | [] => rfl
  | c :: cs =>
    rcases h with h | h
    · exact absurd h (by simp)
    · simp only [dfNRows] at h
      simp [dfSetCol, h]

lemma listMapOpt_length {α β : Type} (f : α → Option β) :
    ∀ (l : List α) (l' : List β), listMapOpt f l = some l' → l'.length = l.length := by
  intro l
  induction l with
  | nil =>
    intro l' h
    simp only [listMapOpt, Option.some.injEq] at h
    simp [← h]
  | cons a as ih =>
    intro l' h
    simp only [listMapOpt, Option.bind_eq_bind] at h
    rcases ha : f a with _ | b <;> rw [ha] at h
    · simp at h
    · simp only [Option.some_bind] at h
      rcases has : listMapOpt f as with _ | bs <;> rw [has] at h
      · simp at h
      · simp only [Option.some_bind, Option.pure_def, Option.some.injEq] at h
        rw [← h]
        simp [ih bs has]

lemma rowElem_list (i : Nat) (r : List PyVal) :
    rowElem i (.list r) = some (r.getD i (.str "")) := by
  by_cases h : i < r.length
  · simp [rowElem, pyLen, pySeqGet, h, List.getD_eq_getElem?_getD, List.getElem?_eq_getElem h]
  · simp only [rowElem, pyLen, if_neg h]
    rw [List.getD_eq_getElem?_getD, List.getElem?_eq_none (by omega)]
    rfl

lemma listMapOpt_rowElem_lists (i : Nat) :
    ∀ rows : List (List PyVal),
      listMapOpt (rowElem i) (rows.map PyVal.list) =
        some (rows.map (fun r => r.getD i (.str ""))) := by
  intro rows
  induction rows with
  | nil => rfl
  | cons r rs ih =>
    simp only [List.map_cons, listMapOpt, rowElem_list, ih]
    rfl

lemma dfAddCols_spec (mk : Nat → Option (List PyVal)) (nm : Nat → String)
    (colf : Nat → List PyVal) (L : Nat) :
    ∀ (ks : List Nat) (df : DataFrame),
      (∀ k ∈ ks, mk k = some (colf k)) →
      (∀ k ∈ ks, (colf k).length = L) →
      (∀ c ∈ df, c.2.length = L) →
      dfAddCols mk nm ks df = some (df ++ ks.map (fun k => (nm k, colf k))) := by
  intro ks
  induction ks with
  | nil =>
    intro df _ _ _
    simp [dfAddCols]
  | cons k ks ih =>
    intro df hmk hlen hall
    have hk : mk k = some (colf k) := hmk k (by simp)
    have hset : dfSetCol df (nm k) (colf k) = some (df ++ [(nm k, colf k)]) := by
      apply dfSetCol_ok
      match df with
      | [] => exact Or.inl rfl
      | c :: cs =>
        refine Or.inr ?_
        rw [hlen k (by simp), dfNRows, hall c (by simp)]
    have hall' : ∀ c ∈ df ++ [(nm k, colf k)], c.2.length = L := by
      intro c hc
      rcases List.mem_append.mp hc with h | h
      · exact hall c h
      · simp at h
        rw [h]
        exact hlen k (by simp)
    have := ih (df ++ [(nm k, colf k)]) (fun j hj => hmk j (by simp [hj]))
      (fun j hj => hlen j (by simp [hj])) hall'
    simp only [dfAddCols, Option.bind_eq_bind, hk, Option.some_bind, hset]
    rw [this]
    simp

lemma dfAddCols_inv (mk : Nat → Option (List PyVal)) (nm : Nat → String) (L : Nat)
    (hmk : ∀ k col, mk k = some col → col.length = L) :
    ∀ (ks : List Nat) (df0 out : DataFrame),
      dfAddCols mk nm ks df0 = some out →
      (∀ c ∈ df0, c.2.length = L) →
      (∀ c ∈ out, c.2.length = L) ∧ out.length = df0.length + ks.length := by
  intro ks
  induction ks with
  | nil =>
    intro df0 out h hall
    simp only [dfAddCols, Option.some.injEq] at h
    subst h
    exact ⟨hall, by simp⟩
  | cons k ks ih =>
    intro df0 out h hall
    simp only [dfAddCols, Option.bind_eq_bind] at h
    rcases hk : mk k with _ | col <;> rw [hk] at h
    · simp at h
    · simp only [Option.some_bind] at h
      rcases hset : dfSetCol df0 (nm k) col with _ | df' <;> rw [hset] at h
      · simp at h
      · simp only [Option.some_bind] at h
        have hdf' : df' = df0 ++ [(nm k, col)] := dfSetCol_inv hset
        have hall' : ∀ c ∈ df', c.2.length = L := by
          subst hdf'
          intro c hc
          rcases List.mem_append.mp hc with hc | hc
          · exact hall c hc
          · simp at hc
            rw [hc]
            exact hmk k col hk
        obtain ⟨h1, h2⟩ := ih df' out h hall'
        refine ⟨h1, ?_⟩
        rw [h2, hdf']
        simp
        omega

lemma timestamp_step_nrows {df0 df : DataFrame} {stamps : List ℚ}
    (hall : ∀ c ∈ df0, c.2.length = stamps.length)
    (h : (if stamps.length > 0 then dfSetCol df0 "time_stamp" (stamps.map .float)
          else some df0) = some df) :
    dfNRows df = stamps.length := by
  by_cases hs : stamps.length > 0
  · rw [if_pos hs] at h
    have hdf : df = df0 ++ [("time_stamp", stamps.map .float)] := dfSetCol_inv h
    subst hdf
    match df0, hall with
    | [], _ => simp [dfNRows]
    | c :: cs, hall => simpa [dfNRows] using hall c (by simp)
  · rw [if_neg hs] at h
    simp only [Option.some.injEq] at h
    subst h
    match df0, hall with
    | [], _ =>
      simp only [dfNRows]
      omega
    | c :: cs, hall => simpa [dfNRows] using hall c (by simp)

/-- C8: a one-dimensional numeric `time_series` of length N with N aligned
timestamps (N ≥ 1) flattens to exactly N rows and exactly two columns: one
value column and the appended `time_stamp` column. -/
theorem oneD_flattening (streams : List Stream) (i : Nat) (s : Stream)
    (vs stamps : List ℚ)
    (hget : streams[i]? = some s)
    (hts : s.time_series = some (.nd1 vs))
    (hst : s.time_stamps = some stamps)
    (halign : vs.length = stamps.length)
    (hN : 1 ≤ vs.length) :
    ∃ df, get_behavioral_data streams (some i) = some df ∧
      df = [("time_series", vs.map PyVal.float),
            ("time_stamp", stamps.map PyVal.float)] ∧
      df.length = 2 ∧ dfNRows df = vs.length := by
  refine ⟨[("time_series", vs.map PyVal.float), ("time_stamp", stamps.map PyVal.float)],
    ?_, rfl, rfl, by simp [dfNRows]⟩
  simp only [get_behavioral_data, hget, hts, hst, Option.getD_some]
  rw [show dfSetCol [] "time_series" (vs.map PyVal.float) =
      some [("time_series", vs.map PyVal.float)] from rfl]
  show (if stamps.length > 0 then
      dfSetCol [("time_series", vs.map PyVal.float)] "time_stamp" (stamps.map PyVal.float)
    else some [("time_series", vs.map PyVal.float)]) = _
  rw [if_pos (by omega)]
  rw [dfSetCol_ok _ _ _ (Or.inr (by simp [dfNRows, halign]))]
  rfl

/-- Concrete stream used by the C8 witness: three samples, three aligned
timestamps. -/
def wStreamC8 : Stream := ⟨none, some (.nd1 [1, 2, 3]), some [4, 5, 6]⟩

/-- C8 witness. -/
theorem oneD_flattening_witness :
    ∃ df, get_behavioral_data [wStreamC8] (some 0) = some df ∧
      df = [("time_series", ([1, 2, 3] : List ℚ).map PyVal.float),
            ("time_stamp", ([4, 5, 6] : List ℚ).map PyVal.float)] ∧
      df.length = 2 ∧ dfNRows df = ([1, 2, 3] : List ℚ).length :=
  oneD_flattening [wStreamC8] 0 wStreamC8 [1, 2, 3] [4, 5, 6] rfl rfl rfl rfl
    (by decide)

/-- The sample count of a `time_series` in one of the documented shapes
(array or list); other shapes carry no sample rows. -/
def tsSampleLen : PyVal → Option Nat
  | .nd1 vs => some vs.length
  | .nd2 _ rows => some rows.length
  | .list vs => some vs.length
  | _ => none

/-- C9: with no selection the behavioral table is empty and the CSV export
returns no path; with a selection whose `time_series` is a documented
sequence shape aligned 1:1 with the timestamps, any successfully built
behavioral table has exactly as many rows as the stream has samples. -/
theorem no_selection_empty_table_and_rowcount (streams : List Stream) (stem : String) :
    (get_behavioral_data streams none = some [] ∧
     save_behavioral_data_csv streams none stem = some none) ∧
    (∀ (i : Nat) (s : Stream) (df : DataFrame),
      streams[i]? = some s →
      tsSampleLen (s.time_series.getD (.list [])) =
        some ((s.time_stamps.getD []).length) →
      get_behavioral_data streams (some i) = some df →
      dfNRows df = (s.time_stamps.getD []).length) := by
  constructor
  · exact ⟨rfl, rfl⟩
  · intro i s df hget hlen hdf
    rcases htsv : s.time_series.getD (.list []) with s' | n | q | vs | ⟨nc, rows⟩ | vs | kvs <;>
      rw [htsv] at hlen
    · simp [tsSampleLen] at hlen
    · simp [tsSampleLen] at hlen
    · simp [tsSampleLen] at hlen
    · -- 1-D array
      simp only [tsSampleLen, Option.some.injEq] at hlen
      simp only [get_behavioral_data, hget, htsv] at hdf
      rw [show dfSetCol [] "time_series" (vs.map PyVal.float) =
          some [("time_series", vs.map PyVal.float)] from rfl] at hdf
      exact timestamp_step_nrows (by simp [hlen]) hdf
    · -- 2-D array
      simp only [tsSampleLen, Option.some.injEq] at hlen
      simp only [get_behavioral_data, hget, htsv] at hdf
      by_cases hnc : nc = 1
      · rw [if_pos hnc] at hdf
        rw [show dfSetCol [] "time_series" (rows.map (fun r => PyVal.float (r.headD 0))) =
            some [("time_series", rows.map (fun r => PyVal.float (r.headD 0)))] from rfl] at hdf
        exact timestamp_step_nrows (by simp [hlen]) hdf
      · rw [if_neg hnc] at hdf
        rcases hw : dfAddCols (fun i => some (rows.map (fun r => PyVal.float (r.getD i 0))))
            (fun i => s!"feature_{i}") (List.range nc) [] with _ | out <;> rw [hw] at hdf
        · simp at hdf
        · have hinv := dfAddCols_inv _ _ rows.length
            (by
              intro k col hc
              simp only [Option.some.injEq] at hc
              rw [← hc]
              simp)
            (List.range nc) [] out hw (by simp)
          exact timestamp_step_nrows (fun c hc => by rw [hinv.1 c hc, hlen]) hdf
    · -- Python list
      simp only [tsSampleLen, Option.some.injEq] at hlen
      simp only [get_behavioral_data, hget, htsv] at hdf
      match vs, hlen with
      | [], hlen =>
        simp only at hdf
        have h0 : dfNRows df = (s.time_stamps.getD []).length :=
          timestamp_step_nrows (by simp) hdf
        exact h0
      | v0 :: rest, hlen =>
        simp only at hdf
        by_cases hseq : isListOrArray v0 = true
        · rw [if_pos hseq] at hdf
          by_cases h1 : (if (pyLen v0).getD 0 > 0 then (pyLen v0).getD 0 else 1) = 1
          · rw [if_pos h1] at hdf
            simp only [Option.bind_eq_bind] at hdf
            rcases hcol : listMapOpt (rowElem 0) (v0 :: rest) with _ | col <;>
              rw [hcol] at hdf
            · simp at hdf
            · simp only [Option.some_bind] at hdf
              rw [show dfSetCol [] "time_series" col = some [("time_series", col)] from
                rfl] at hdf
              have hcl : col.length = (v0 :: rest).length :=
                listMapOpt_length _ _ _ hcol
              exact timestamp_step_nrows
                (by
                  intro c hc
                  simp at hc
                  subst hc
                  simp [hcl, hlen]) hdf
          · rw [if_neg h1] at hdf
            rcases hw : dfAddCols (fun i => listMapOpt (rowElem i) (v0 :: rest))
                (fun i => s!"feature_{i}")
                (List.range (if (pyLen v0).getD 0 > 0 then (pyLen v0).getD 0 else 1)) []
                with _ | out <;> rw [hw] at hdf
            · simp at hdf
            · have hinv := dfAddCols_inv _ _ (v0 :: rest).length
                (fun k col hc => listMapOpt_length _ _ _ hc)
                _ [] out hw (by simp)
              exact timestamp_step_nrows
                (fun c hc => by rw [hinv.1 c hc, hlen]) hdf
        · rw [if_neg hseq] at hdf
          exact timestamp_step_nrows
            (by
              intro c hc
              simp at hc
              subst hc
              simpa using hlen) hdf
    · simp [tsSampleLen] at hlen

lemma feature_name_ne_timestamp (k : Nat) : (s!"feature_{k}" : String) ≠ "time_stamp" := by
  intro h
  have hdata := congrArg String.data h
  rw [String.data_append, String.data_append] at hdata
  have hf : (toString "feature_" : String).data = ['f', 'e', 'a', 't', 'u', 'r', 'e', '_'] := rfl
  have he : (toString "" : String).data = [] := rfl
  have ht : ("time_stamp" : String).data = ['t', 'i', 'm', 'e', '_', 's', 't', 'a', 'm', 'p'] := rfl
  rw [hf, he, List.append_nil, ht] at hdata
  injection hdata with h1 _
  exact absurd h1 (by decide)

lemma dfValueCols_append_timestamp (df : DataFrame) (c : List PyVal) :
    dfValueCols (df ++ [("time_stamp", c)]) = dfValueCols df := by
  simp [dfValueCols, List.filter_append]

lemma timestamp_step_valueCols (df0 : DataFrame) (stamps : List ℚ)
    (hok : stamps.length = 0 ∨ df0 = [] ∨ stamps.length = dfNRows df0) :
    ∃ df, (if stamps.length > 0 then dfSetCol df0 "time_stamp" (stamps.map PyVal.float)
           else some df0) = some df ∧ dfValueCols df = dfValueCols df0 := by
  by_cases h : stamps.length > 0
  · rw [if_pos h]
    rcases hok with h0 | h0 | h0
    · omega
    · subst h0
      exact ⟨[("time_stamp", stamps.map PyVal.float)], rfl, by simp [dfValueCols]⟩
    · refine ⟨df0 ++ [("time_stamp", stamps.map PyVal.float)], ?_, ?_⟩
      · exact dfSetCol_ok df0 _ _ (Or.inr (by simp [h0]))
      · exact dfValueCols_append_timestamp df0 _
  · rw [if_neg h]
    exact ⟨df0, rfl, rfl⟩

/-- Concrete one-stream list whose ragged `time_series` has an EMPTY first
row followed by a longer row; used to refute the unconditional column-count
claim. -/
def wStreamsC7 : List Stream :=
  [⟨none, some (.list [.list [], .list [.int 1, .int 2]]), some [0, 1]⟩]

/-- C7 counterexample: with ragged rows whose first row is empty, the
flattening does NOT produce `len(first row) = 0` value columns — it falls
back to exactly one value column. -/
theorem ragged_flattening_counterexample :
    ∃ df, get_behavioral_data wStreamsC7 (some 0) = some df ∧
      (dfValueCols df).length = 1 ∧
      (dfValueCols df).length ≠ ([] : List PyVal).length := by
  refine ⟨[("time_series", [.str "", .int 1]),
           ("time_stamp", [.float 0, .float 1])], by rfl, by rfl, by decide⟩

/-- C7 (amended): for a ragged list-of-sequences `time_series` whose FIRST
row is non-empty, the number of value columns equals the length of the
first row; each row contributes its value at each column index, or the
empty-string placeholder when it is shorter, and values beyond the first
row's length are dropped (never become extra columns).  (When the first
row is empty the program instead falls back to one value column — see the
counterexample and C10.) -/
theorem ragged_flattening (streams : List Stream) (i : Nat) (s : Stream)
    (r0 : List PyVal) (rtail : List (List PyVal)) (stamps : List ℚ)
    (hget : streams[i]? = some s)
    (hts : s.time_series = some (.list ((r0 :: rtail).map PyVal.list)))
    (hst : s.time_stamps = some stamps)
    (hr0 : r0 ≠ [])
    (hstamp : stamps = [] ∨ stamps.length = (r0 :: rtail).length) :
    ∃ df, get_behavioral_data streams (some i) = some df ∧
      (dfValueCols df).length = r0.length ∧
      ∀ j : Nat, j < r0.length → ∃ cname, (dfValueCols df)[j]? =
        some (cname, (r0 :: rtail).map (fun r => r.getD j (.str ""))) := by
  have hpos : 0 < r0.length := List.length_pos.mpr hr0
  simp only [get_behavioral_data, hget, hts, hst, Option.getD_some, List.map_cons]
  have hseq : isListOrArray (.list r0) = true := rfl
  rw [if_pos hseq]
  have hncols : (if (pyLen (PyVal.list r0)).getD 0 > 0 then (pyLen (PyVal.list r0)).getD 0
      else 1) = r0.length := by
    simp [pyLen, hpos]
  rw [hncols]
  by_cases h1 : r0.length = 1
  · rw [if_pos h1]
    have hcol := listMapOpt_rowElem_lists 0 (r0 :: rtail)
    simp only [List.map_cons] at hcol
    rw [hcol]
    simp only [Option.bind_eq_bind, Option.some_bind]
    rw [show dfSetCol [] "time_series"
        (r0.getD 0 (PyVal.str "") :: rtail.map (fun r => r.getD 0 (PyVal.str ""))) =
        some [("time_series",
          r0.getD 0 (PyVal.str "") :: rtail.map (fun r => r.getD 0 (PyVal.str "")))] from rfl]
    obtain ⟨df, hdf, hvc⟩ := timestamp_step_valueCols
      [("time_series", r0.getD 0 (PyVal.str "") :: rtail.map (fun r => r.getD 0 (PyVal.str "")))]
      stamps
      (by
        rcases hstamp with h | h
        · left; simp [h]
        · right; right
          simp only [dfNRows, List.length_cons, List.length_map]
          simpa using h)
    refine ⟨df, hdf, ?_, ?_⟩
    · rw [hvc]
      simp [dfValueCols, h1]
    · intro j hj
      have hj0 : j = 0 := by omega
      subst hj0
      rw [hvc]
      exact ⟨"time_series", by simp [dfValueCols]⟩
  · rw [if_neg h1]
    have hadd := dfAddCols_spec (fun i => listMapOpt (rowElem i) (.list r0 :: rtail.map .list))
      (fun i => s!"feature_{i}")
      (fun i => r0.getD i (PyVal.str "") :: rtail.map (fun r => r.getD i (PyVal.str "")))
      (rtail.length + 1)
      (List.range r0.length) []
      (by
        intro k _
        have h := listMapOpt_rowElem_lists k (r0 :: rtail)
        simp only [List.map_cons] at h
        exact h)
      (by intro k _; simp)
      (by simp)
    rw [hadd]
    simp only [List.nil_append]
    obtain ⟨df, hdf, hvc⟩ := timestamp_step_valueCols
      ((List.range r0.length).map
        (fun k => (s!"feature_{k}",
          r0.getD k (PyVal.str "") :: rtail.map (fun r => r.getD k (PyVal.str ""))))) stamps
      (by
        rcases hstamp with h | h
        · left; simp [h]
        · right; right
          obtain ⟨m, hm⟩ : ∃ m, r0.length = m + 2 := ⟨r0.length - 2, by omega⟩
          rw [hm, List.range_succ_eq_map]
          simp only [List.map_cons, dfNRows]
          simpa using h)
    have hvcmap : dfValueCols ((List.range r0.length).map
        (fun k => (s!"feature_{k}",
          r0.getD k (PyVal.str "") :: rtail.map (fun r => r.getD k (PyVal.str ""))))) =
        (List.range r0.length).map
          (fun k => (s!"feature_{k}",
            r0.getD k (PyVal.str "") :: rtail.map (fun r => r.getD k (PyVal.str "")))) := by
      apply List.filter_eq_self.mpr
      intro c hc
      obtain ⟨k, _, hk⟩ := List.mem_map.mp hc
      rw [← hk]
      simp [feature_name_ne_timestamp k]
    refine ⟨df, hdf, ?_, ?_⟩
    · rw [hvc, hvcmap]
      simp
    · intro j hj
      rw [hvc, hvcmap]
      refine ⟨s!"feature_{j}", ?_⟩
      rw [List.getElem?_map, List.getElem?_range hj]
      rfl

/-- Concrete two-row ragged stream used by the C7 witness: first row has
length 2, second row has length 3; the third value of the longer row is
dropped. -/
def wStreamsC7b : List Stream :=
  [⟨none, some (.list [.list [.int 1, .int 2], .list [.int 3, .int 4, .int 5]]),
    some [10, 11]⟩]

/-- C7 witness. -/
theorem ragged_flattening_witness :
    ∃ df, get_behavioral_data wStreamsC7b (some 0) = some df ∧
      (dfValueCols df).length = ([PyVal.int 1, PyVal.int 2] : List PyVal).length ∧
      ∀ j : Nat, j < ([PyVal.int 1, PyVal.int 2] : List PyVal).length →
        ∃ cname, (dfValueCols df)[j]? =
          some (cname, ([[PyVal.int 1, PyVal.int 2], [PyVal.int 3, PyVal.int 4, PyVal.int 5]] :
            List (List PyVal)).map (fun r => r.getD j (.str ""))) :=
  ragged_flattening wStreamsC7b 0 _ [PyVal.int 1, PyVal.int 2]
    [[PyVal.int 3, PyVal.int 4, PyVal.int 5]] [10, 11] rfl rfl rfl (by simp)
    (Or.inr (by simp))

/-- C10: a ragged list-of-sequences `time_series` whose first row is EMPTY
falls back to exactly one value column, to which each row contributes its
first element when it has one and the empty-string placeholder otherwise
(the column count is never zero). -/
theorem ragged_empty_first_row (streams : List Stream) (i : Nat) (s : Stream)
    (rtail : List (List PyVal)) (stamps : List ℚ)
    (hget : streams[i]? = some s)
    (hts : s.time_series = some (.list ((([] : List PyVal) :: rtail).map PyVal.list)))
    (hst : s.time_stamps = some stamps)
    (hstamp : stamps = [] ∨ stamps.length = (([] : List PyVal) :: rtail).length) :
    ∃ df, get_behavioral_data streams (some i) = some df ∧
      dfValueCols df =
        [("time_series",
          (([] : List PyVal) :: rtail).map (fun r => r.getD 0 (.str "")))] := by
  simp only [get_behavioral_data, hget, hts, hst, Option.getD_some, List.map_cons]
  have hseq : isListOrArray (.list ([] : List PyVal)) = true := rfl
  rw [if_pos hseq]
  have hncols : (if (pyLen (PyVal.list ([] : List PyVal))).getD 0 > 0 then
      (pyLen (PyVal.list ([] : List PyVal))).getD 0 else 1) = 1 := by
    simp [pyLen]
  rw [hncols, if_pos rfl]
  have hcol := listMapOpt_rowElem_lists 0 (([] : List PyVal) :: rtail)
  simp only [List.map_cons] at hcol
  rw [hcol]
  simp only [Option.bind_eq_bind, Option.some_bind]
  rw [show dfSetCol [] "time_series"
      (([] : List PyVal).getD 0 (PyVal.str "") ::
        rtail.map (fun r => r.getD 0 (PyVal.str ""))) =
      some [("time_series",
        ([] : List PyVal).getD 0 (PyVal.str "") ::
          rtail.map (fun r => r.getD 0 (PyVal.str "")))] from rfl]
  obtain ⟨df, hdf, hvc⟩ := timestamp_step_valueCols
    [("time_series",
      ([] : List PyVal).getD 0 (PyVal.str "") ::
        rtail.map (fun r => r.getD 0 (PyVal.str "")))] stamps
    (by
      rcases hstamp with h | h
      · left; simp [h]
      · right; right
        simp only [dfNRows, List.length_cons, List.length_map]
        simpa using h)
  refine ⟨df, hdf, ?_⟩
  rw [hvc]
  simp [dfValueCols]

/-- Concrete stream list used by the C10 witness: empty first row, then a
row `[7]` and an empty row. -/
def wStreamsC10 : List Stream :=
  [⟨none, some (.list [.list [], .list [.int 7], .list []]), some [1, 2, 3]⟩]

/-- C10 witness: the single fallback column holds `''`, `7`, `''`. -/
theorem ragged_empty_first_row_witness :
    ∃ df, get_behavioral_data wStreamsC10 (some 0) = some df ∧
      dfValueCols df =
        [("time_series",
          (([] : List PyVal) :: [[PyVal.int 7], []]).map (fun r => r.getD 0 (.str "")))] :=
  ragged_empty_first_row wStreamsC10 0 _ [[PyVal.int 7], []] [1, 2, 3] rfl rfl rfl
    (Or.inr (by simp))

/-- Concrete stream used by the C9 witness. -/
def wStreamC9 : Stream := ⟨none, some (.nd1 [1, 2]), some [7, 9]⟩

/-- C9 witness: with no selection the table is empty and no path is
returned; with stream `wStreamC9` selected the table has 2 rows = 2
samples. -/
theorem no_selection_empty_table_and_rowcount_witness :
    (get_behavioral_data [wStreamC9] none = some [] ∧
     save_behavioral_data_csv [wStreamC9] none "out" = some none) ∧
    dfNRows [("time_series", [PyVal.float 1, PyVal.float 2]),
             ("time_stamp", [PyVal.float 7, PyVal.float 9])] =
      (wStreamC9.time_stamps.getD []).length :=
  ⟨(no_selection_empty_table_and_rowcount [wStreamC9] "out").1,
   (no_selection_empty_table_and_rowcount [wStreamC9] "out").2 0 wStreamC9
     [("time_series", [PyVal.float 1, PyVal.float 2]),
      ("time_stamp", [PyVal.float 7, PyVal.float 9])] rfl (by decide) (by rfl)⟩

mutual
/-- A rendered tree node: its label name, its depth (`level`), and its
ordered children.  The label's presentational text (type/value/size
annotations) is outside the embedding. -/
inductive TreeNode where
  | node (name : String) (level : Nat) (children : TreeForest)
/-- A list of sibling tree nodes. -/
inductive TreeForest where
  | nil
  | cons (t : TreeNode) (ts : TreeForest)
end

mutual
/-- Is every node's recorded depth at most `d`? -/
def TreeNode.levelsLE (d : Nat) : TreeNode → Bool
  | .node _ lv cs => decide (lv ≤ d) && TreeForest.levelsLE d cs
/-- Forest version of `TreeNode.levelsLE`. -/
def TreeForest.levelsLE (d : Nat) : TreeForest → Bool
  | .nil => true
  | .cons t ts => TreeNode.levelsLE d t && TreeForest.levelsLE d ts
end

/-- The children of a node. -/
def TreeNode.children : TreeNode → TreeForest
  | .node _ _ cs => cs

/-- The recorded depth of a node. -/
def TreeNode.level : TreeNode → Nat
  | .node _ lv _ => lv

/-- The expandability condition of `_build_interactive_tree_html` (lines
checking `has_children`, without the depth guard): a non-empty dict, or a
non-empty list whose first element is a dict. -/
def expandable : PyVal → Bool
  | .dict kvs => !kvs.isEmpty
  | .list vs =>
    match vs.headD (.int 0) with
    | .dict _ => !vs.isEmpty
    | _ => false
  | _ => false

/-- The fixed priority keys used when expanding a dict. -/
def priority_keys : List String :=
  ["info", "time_series", "time_stamps", "footer"]

/-- The child ordering of a dict node: the priority keys that are present
(in priority order, paired with their looked-up values) followed by all
remaining entries in original encounter order. -/
def sortedEntries (kvs : List (String × PyVal)) : List (String × PyVal) :=
  (priority_keys.filterMap (fun k => (lookupKey kvs k).map (fun v => (k, v)))) ++
    kvs.filter (fun kv => !priority_keys.contains kv.1)

/-- The recursion of `_build_interactive_tree_html`, producing the node
tree instead of its HTML text (`none` is the empty string returned when
`level > max_depth`).  The recursion depth is bounded by
`max_depth - level`, made explicit by the `fuel` argument; the wrapper
below supplies exactly `max_depth + 1 - level`, under which the fuel never
runs out before the `level > max_depth` guard fires. -/
def buildTreeAux : Nat → PyVal → String → Nat → Nat → Option TreeNode
  | 0, _, _, _, _ => none
  | fuel + 1, obj, name, level, max_depth =>
    if level > max_depth then none
    else
      let has_children : Bool :=
        match obj with
        | .dict kvs => decide (level < max_depth) && !kvs.isEmpty
        | .list vs =>
          decide (level < max_depth) &&
            (match vs.headD (.int 0) with
             | .dict _ => !vs.isEmpty
             | _ => false)
        | _ => false
      if has_children then
        match obj with
        | .dict kvs =>
          some (.node name level
            ((sortedEntries kvs).foldr
              (fun kv acc =>
                match buildTreeAux fuel kv.2 kv.1 (level + 1) max_depth with
                | some t => .cons t acc
                | none => acc) .nil))
        | .list vs =>
          some (.node name level
            (match buildTreeAux fuel (vs.headD (.int 0)) "[0]" (level + 1) max_depth with
             | some t => .cons t .nil
             | none => .nil))
        | _ => some (.node name level .nil)
      else some (.node name level .nil)

/-- `_build_interactive_tree_html(obj, name, level, max_depth)`. -/
def build_interactive_tree (obj : PyVal) (name : String) (level max_depth : Nat) :
    Option TreeNode :=
  buildTreeAux (max_depth + 1 - level) obj name level max_depth

lemma forest_foldr_levels (d fuel level : Nat)
    (IH : ∀ (obj : PyVal) (name : String) (t : TreeNode),
      buildTreeAux fuel obj name (level + 1) d = some t → t.levelsLE d = true) :
    ∀ l : List (String × PyVal),
      TreeForest.levelsLE d
        (l.foldr (fun kv acc =>
          match buildTreeAux fuel kv.2 kv.1 (level + 1) d with
          | some t => .cons t acc
          | none => acc) .nil) = true := by
  intro l
  induction l with
  | nil => rfl
  | cons kv rest ihl =>
    simp only [List.foldr_cons]
    rcases hb : buildTreeAux fuel kv.2 kv.1 (level + 1) d with _ | t
    · simpa using ihl
    · simp only [TreeForest.levelsLE]
      rw [IH kv.2 kv.1 t hb]
      simpa using ihl

lemma buildTreeAux_levelsLE (d : Nat) :
    ∀ (fuel : Nat) (obj : PyVal) (name : String) (level : Nat) (t : TreeNode),
      buildTreeAux fuel obj name level d = some t → t.levelsLE d = true := by
  intro fuel
  induction fuel with
  | zero =>
    intro obj name level t h
    exact absurd h (by simp [buildTreeAux])
  | succ fuel ih =>
    intro obj name level t h
    simp only [buildTreeAux] at h
    by_cases hld : level > d
    · rw [if_pos hld] at h
      exact absurd h (by simp)
    · rw [if_neg hld] at h
      have hlev : decide (level ≤ d) = true := by
        simp
        omega
      cases obj with
      | dict kvs =>
        split at h <;> injection h with h <;> subst h
        · simp only [TreeNode.levelsLE, hlev, Bool.true_and]
          exact forest_foldr_levels d fuel level (fun o n t ht => ih o n (level + 1) t ht)
            (sortedEntries kvs)
        · simp [TreeNode.levelsLE, TreeForest.levelsLE, hlev]
      | list vs =>
        split at h <;> injection h with h <;> subst h
        · rcases hb : buildTreeAux fuel (vs.headD (.int 0)) "[0]" (level + 1) d with _ | t0
          · simp only [TreeNode.levelsLE, hlev, Bool.true_and, hb]
            rfl
          · simp only [TreeNode.levelsLE, hlev, Bool.true_and, hb]
            simp only [TreeForest.levelsLE, Bool.and_true]
            exact ih _ "[0]" (level + 1) t0 hb
        · simp [TreeNode.levelsLE, TreeForest.levelsLE, hlev]
      | str s => simp only at h; injection h with h; subst h
                 simp [TreeNode.levelsLE, TreeForest.levelsLE, hlev]
      | int n => simp only at h; injection h with h; subst h
                 simp [TreeNode.levelsLE, TreeForest.levelsLE, hlev]
      | float q => simp only at h; injection h with h; subst h
                   simp [TreeNode.levelsLE, TreeForest.levelsLE, hlev]
      | nd1 vs => simp only at h; injection h with h; subst h
                  simp [TreeNode.levelsLE, TreeForest.levelsLE, hlev]
      | nd2 nc rows => simp only at h; injection h with h; subst h
                       simp [TreeNode.levelsLE, TreeForest.levelsLE, hlev]

lemma buildTreeAux_children_expandable :
    ∀ (fuel : Nat) (obj : PyVal) (name : String) (level d : Nat) (t : TreeNode),
      buildTreeAux fuel obj name level d = some t →
      t.children ≠ TreeForest.nil → expandable obj = true := by
  intro fuel obj name level d t h hne
  match fuel with
  | 0 => exact absurd h (by simp [buildTreeAux])
  | fuel + 1 =>
    simp only [buildTreeAux] at h
    by_cases hld : level > d
    · rw [if_pos hld] at h
      exact absurd h (by simp)
    · rw [if_neg hld] at h
      cases obj with
      | dict kvs =>
        split at h
        · rename_i hcond
          have hcond' : (decide (level < d) && !kvs.isEmpty) = true := hcond
          exact ((Bool.and_eq_true _ _).mp hcond').2
        · injection h with h
          subst h
          exact absurd rfl hne
      | list vs =>
        split at h
        · rename_i hcond
          have hcond' : (decide (level < d) &&
              (match vs.headD (.int 0) with
               | .dict _ => !vs.isEmpty
               | _ => false)) = true := hcond
          exact ((Bool.and_eq_true _ _).mp hcond').2
        · injection h with h
          subst h
          exact absurd rfl hne
      | str s =>
        simp only at h; injection h with h; subst h; exact absurd rfl hne
      | int n =>
        simp only at h; injection h with h; subst h; exact absurd rfl hne
      | float q =>
        simp only at h; injection h with h; subst h; exact absurd rfl hne
      | nd1 vs =>
        simp only at h; injection h with h; subst h; exact absurd rfl hne
      | nd2 nc rows =>
        simp only at h; injection h with h; subst h; exact absurd rfl hne

/-- C6: (a) every node of a produced tree has recorded depth at most
`max_depth`; (b) a call whose level already exceeds `max_depth` produces no
node at all (pruned, not stubbed); (c) a node acquires children only when
its object is expandable: a non-empty dict, or a non-empty list whose first
element is a dict. -/
theorem tree_depth_bound_and_expansion :
    (∀ (obj : PyVal) (name : String) (level d : Nat) (t : TreeNode),
      build_interactive_tree obj name level d = some t → t.levelsLE d = true) ∧
    (∀ (obj : PyVal) (name : String) (level d : Nat),
      level > d → build_interactive_tree obj name level d = none) ∧
    (∀ (obj : PyVal) (name : String) (level d : Nat) (t : TreeNode),
      build_interactive_tree obj name level d = some t →
      t.children ≠ TreeForest.nil → expandable obj = true) := by
  refine ⟨?_, ?_, ?_⟩
  · intro obj name level d t h
    exact buildTreeAux_levelsLE d _ obj name level t h
  · intro obj name level d h
    unfold build_interactive_tree
    rw [show d + 1 - level = 0 from by omega]
    rfl
  · intro obj name level d t h hne
    exact buildTreeAux_children_expandable _ obj name level d t h hne

/-- C6 witness: a two-key dict built with `max_depth = 1` from level 0; the
produced tree stays within depth 1, a call from level 5 yields nothing, and
the root (which has a child) is expandable. -/
theorem tree_depth_bound_and_expansion_witness :
    TreeNode.levelsLE 1
      ((build_interactive_tree (.dict [("a", .int 1)]) "stream" 0 1).getD
        (.node "x" 99 .nil)) = true ∧
    build_interactive_tree (.dict [("a", .int 1)]) "stream" 5 1 = none ∧
    expandable (.dict [("a", .int 1)]) = true := by
  refine ⟨?_, ?_, ?_⟩
  · exact tree_depth_bound_and_expansion.1 (.dict [("a", .int 1)]) "stream" 0 1 _ rfl
  · exact tree_depth_bound_and_expansion.2.1 (.dict [("a", .int 1)]) "stream" 5 1 (by omega)
  · exact tree_depth_bound_and_expansion.2.2 (.dict [("a", .int 1)]) "stream" 0 1
      (.node "stream" 0 (.cons (.node "a" 1 .nil) .nil)) rfl
      (fun hcon => TreeForest.noConfusion hcon)

end XdfExtraction
